import Mathlib

/-!
# Verification of the mastodon_exporter scrape pipeline

A shallow embedding of the Go source of `andrew-d/mastodon_exporter`
(`main.go`): the bucketing engine `resolvedMetricFromNums`, the query layer
`getNumReports` / `getResolvedStats` (with the database modelled as an
explicit response value), and the scrape orchestrator `scrape`.

Go `float64` duration and sum values are modelled as `ℚ` (exact rational
arithmetic); Go `int` report counts as `ℤ`; Go `uint64` bucket counts as `ℕ`.
The Go `map[float64]uint64` bucket accumulator is modelled as an association
list: `mapGet` follows Go's read-with-zero-default semantics and `mapIncr`
follows Go's `buckets[bucket]++` (which creates the key on first increment).
The Prometheus metric channel is modelled as the list of metrics emitted, in
emission order.
-/

namespace MastodonExporter

/-- The namespace constant from `main.go` (`namespace = "mastodon"`). -/
def metricNamespace : String := "mastodon"

/-- The subsystem constant from `main.go` (`subsystem = "exporter"`). -/
def metricSubsystem : String := "exporter"

/-- Embedding of `prometheus.BuildFQName`: joins the nonempty parts with an
underscore. -/
def buildFQName (ns sub name : String) : String :=
  if name = "" then ""
  else if ns ≠ "" ∧ sub ≠ "" then String.intercalate "_" [ns, sub, name]
  else if ns ≠ "" then String.intercalate "_" [ns, name]
  else if sub ≠ "" then String.intercalate "_" [sub, name]
  else name

/-- The fully qualified name of the `num_reports` gauge family. -/
def numReportsName : String := buildFQName metricNamespace metricSubsystem "num_reports"

/-- The fully qualified name of the `resolved_time_seconds` histogram family. -/
def resolvedTimeSecondsName : String :=
  buildFQName metricNamespace metricSubsystem "resolved_time_seconds"

/-- The fully qualified name of the `errors` gauge. -/
def errorsName : String := buildFQName metricNamespace metricSubsystem "errors"

/-- The hard-coded histogram boundaries `resolutionTimeBuckets` from `main.go`. -/
def resolutionTimeBuckets : List ℚ :=
  [60, 600, 1800, 3600, 14400, 28800, 86400, 172800, 604800]

/-! ## The Go bucket map

`resolvedMetricFromNums` accumulates bucket counts in a
`map[float64]uint64`.  We model the map as an association list.  Reading a
missing key yields `0` (Go's zero value); `buckets[bucket]++` stores
`read + 1`, creating the key if absent.  Go map iteration order is
irrelevant here: all observations go through lookups by key. -/

/-- Model of Go's `map[float64]uint64`. -/
abbrev GoBucketMap := List (ℚ × ℕ)

/-- Go map read: `buckets[k]` (missing key ⇒ `none`; Go reports the zero
value `0` together with `ok = false`). -/
def mapLookup : GoBucketMap → ℚ → Option ℕ
  | [], _ => none
  | (k', v) :: rest, k => if k' = k then some v else mapLookup rest k

/-- Go map read with the zero-value default: `buckets[k]` as used in
expressions. -/
def mapGet (m : GoBucketMap) (k : ℚ) : ℕ :=
  (mapLookup m k).getD 0

/-- Go's `buckets[k]++`: increment the entry, creating it at `1` if the key
is absent. -/
def mapIncr : GoBucketMap → ℚ → GoBucketMap
  | [], k => [(k, 1)]
  | (k', v) :: rest, k =>
      if k' = k then (k', v + 1) :: rest else (k', v) :: mapIncr rest k

/-- One iteration of the inner loop of `resolvedMetricFromNums`:
`if num <= bucket { buckets[bucket]++ }`. -/
def bucketStep (num : ℚ) (m : GoBucketMap) (bucket : ℚ) : GoBucketMap :=
  if num ≤ bucket then mapIncr m bucket else m

/-- The value part of a Prometheus const histogram, as passed to
`prometheus.MustNewConstHistogram`: total count, sum and the bucket map. -/
structure ConstHistogram where
  count : ℕ
  sum : ℚ
  buckets : GoBucketMap
  deriving DecidableEq, Repr

/-- The bucketing engine `resolvedMetricFromNums`, with the package-level `resolutionTimeBuckets`
made an explicit `bounds` parameter (the source marks it as configuration):
fold over the observations, adding each to the running sum and incrementing
the bucket of every boundary `bucket` with `num ≤ bucket`; the total count
is the length of the input. -/
def resolvedMetricFromNums (bounds : List ℚ) (numbers : List ℚ) : ConstHistogram :=
  let acc := numbers.foldl
    (fun (acc : ℚ × GoBucketMap) num =>
      (acc.1 + num, bounds.foldl (bucketStep num) acc.2))
    ((0 : ℚ), ([] : GoBucketMap))
  ⟨numbers.length, acc.1, acc.2⟩

/-! ### Bucket map lemmas -/

@[simp] theorem mapGet_nil (k : ℚ) : mapGet [] k = 0 := rfl

theorem mapGet_mapIncr (m : GoBucketMap) (k q : ℚ) :
    mapGet (mapIncr m k) q = mapGet m q + (if k = q then 1 else 0) := by
  induction m with
  | nil =>
      by_cases h : k = q <;> simp [mapIncr, mapGet, mapLookup, h]
  | cons p rest ih =>
      obtain ⟨k', v⟩ := p
      by_cases h1 : k' = k
      · subst h1
        by_cases h2 : k' = q <;>
          simp [mapIncr, mapGet, mapLookup, h2]
      · by_cases h2 : k' = q
        · subst h2
          have hkq : ¬ k = k' := fun h => h1 h.symm
          simp [mapIncr, mapGet, mapLookup, h1, hkq]
        · have h := ih
          simp [mapIncr, mapGet, mapLookup, h1, h2] at h ⊢
          exact h

theorem mapGet_foldl_bucketStep (bounds : List ℚ) (num : ℚ) (m : GoBucketMap) (b : ℚ) :
    mapGet (bounds.foldl (bucketStep num) m) b
      = mapGet m b + (if num ≤ b then bounds.count b else 0) := by
  induction bounds generalizing m with
  | nil => simp
  | cons hd tl ih =>
      rw [List.foldl_cons, ih]
      rw [List.count_cons]
      unfold bucketStep
      by_cases hb : hd = b
      · subst hb
        by_cases hle : num ≤ hd <;>
          simp [hle, mapGet_mapIncr]
        omega
      · have hb' : (hd == b) = false := by
          simp [hb]
        by_cases hle : num ≤ hd
        · have : mapGet (mapIncr m hd) b = mapGet m b := by
            simp [mapGet_mapIncr, hb]
          simp [hle, this, hb']
        · simp [hle, hb']

/-! ### The fold in `resolvedMetricFromNums` -/

theorem histFold_fst (bounds numbers : List ℚ) (init : ℚ × GoBucketMap) :
    (numbers.foldl
        (fun (acc : ℚ × GoBucketMap) num =>
          (acc.1 + num, bounds.foldl (bucketStep num) acc.2)) init).1
      = init.1 + numbers.sum := by
  induction numbers generalizing init with
  | nil => simp
  | cons hd tl ih =>
      rw [List.foldl_cons, ih]
      simp
      ring

theorem histFold_get (bounds numbers : List ℚ) (init : ℚ × GoBucketMap) (b : ℚ) :
    mapGet (numbers.foldl
        (fun (acc : ℚ × GoBucketMap) num =>
          (acc.1 + num, bounds.foldl (bucketStep num) acc.2)) init).2 b
      = mapGet init.2 b + bounds.count b * numbers.countP (fun d => decide (d ≤ b)) := by
  induction numbers generalizing init with
  | nil => simp
  | cons hd tl ih =>
      rw [List.foldl_cons, ih]
      simp only [mapGet_foldl_bucketStep, List.countP_cons]
      by_cases hle : hd ≤ b <;> (simp [hle]; try ring)

theorem resolvedMetricFromNums_bucket (bounds numbers : List ℚ) (b : ℚ) :
    mapGet (resolvedMetricFromNums bounds numbers).buckets b
      = bounds.count b * numbers.countP (fun d => decide (d ≤ b)) := by
  unfold resolvedMetricFromNums
  simpa using histFold_get bounds numbers (0, []) b

theorem resolvedMetricFromNums_sum (bounds numbers : List ℚ) :
    (resolvedMetricFromNums bounds numbers).sum = numbers.sum := by
  unfold resolvedMetricFromNums
  simpa using histFold_fst bounds numbers (0, [])

theorem resolvedMetricFromNums_count (bounds numbers : List ℚ) :
    (resolvedMetricFromNums bounds numbers).count = numbers.length := rfl

/-- A strictly increasing boundary list has no duplicate entries. -/
theorem nodup_of_pairwise_lt (B : List ℚ) (hB : List.Pairwise (· < ·) B) :
    B.Nodup :=
  hB.imp ne_of_lt

theorem resolvedMetricFromNums_bucket_of_mem (bounds numbers : List ℚ)
    (hB : List.Pairwise (· < ·) bounds) (b : ℚ) (hb : b ∈ bounds) :
    mapGet (resolvedMetricFromNums bounds numbers).buckets b
      = numbers.countP (fun d => decide (d ≤ b)) := by
  rw [resolvedMetricFromNums_bucket,
    List.count_eq_one_of_mem (nodup_of_pairwise_lt bounds hB) hb, one_mul]

/-! ## Query layer

The database pool is modelled by passing each query's response to the
query functions explicitly.  The error taxonomy of scrape-time failures:
the query itself fails (`queryError`, the `"querying database"` branch) or
a row fails to decode (`rowScanError`, the `"scanning row"` branch). -/

/-- Scrape-time query failures: the query failed, or a row could not be
scanned. -/
inductive ScrapeError where
  | queryError
  | rowScanError
  deriving DecidableEq, Repr

/-- The database response to the resolution-durations query of
`getResolvedStats`: either the query itself fails, or it returns a list of
rows, each of which scans to a `float64` (`some n`) or fails to scan
(`none`). -/
inductive DurationsResp where
  | fail
  | rows (rs : List (Option ℚ))
  deriving DecidableEq, Repr

/-- The database response to the report-counts query of `getNumReports`:
the query either fails or scans the two integers
`(resolved, unresolved)`. -/
abbrev ReportsResp := Except ScrapeError (ℤ × ℤ)

/-- Embedding of `getNumReports`: pass the scanned counts, or the error,
through. -/
def getNumReports (resp : ReportsResp) : Except ScrapeError (ℤ × ℤ) :=
  resp

/-- Embedding of `pgx.CollectRows` with the scan function used in
`getResolvedStats`: collect the rows in order; the first row that fails to
scan fails the whole collection. -/
def collectRows : List (Option ℚ) → Except ScrapeError (List ℚ)
  | [] => .ok []
  | none :: _ => .error .rowScanError
  | some n :: rest =>
      match collectRows rest with
      | .error e => .error e
      | .ok ns => .ok (n :: ns)

/-- Embedding of `getResolvedStats` (lines 552-575): run the durations
query, collect the rows, and build the histogram from the collected
numbers. -/
def getResolvedStats (resp : DurationsResp) : Except ScrapeError ConstHistogram :=
  match resp with
  | .fail => .error .queryError
  | .rows rs =>
      match collectRows rs with
      | .error e => .error e
      | .ok numbers => .ok (resolvedMetricFromNums resolutionTimeBuckets numbers)

/-! ## Metrics and the scrape orchestrator -/

/-- A metric emitted on the collection channel: a labelled gauge
(`prometheus.MustNewConstMetric` with `GaugeValue`, and the `errors` gauge)
or a const histogram (`prometheus.MustNewConstHistogram`). -/
inductive Metric where
  | gauge (name : String) (labelValues : List String) (value : ℚ)
  | histogram (name : String) (hist : ConstHistogram)
  deriving DecidableEq, Repr

/-- The two `num_reports` gauge samples emitted in the success branch of
`scrape` (lines 516-527): value `float64(resolved)` labelled `"true"`, then
value `float64(unresolved)` labelled `"false"`. -/
def reportCountSamples (desc : String) (resolved unresolved : ℤ) : List Metric :=
  [Metric.gauge desc ["true"] (resolved : ℚ),
   Metric.gauge desc ["false"] (unresolved : ℚ)]

/-- The `mastodonExporter` struct (lines 466-472): the two static metric
descriptors and the current value of the mutable `errors` gauge.  The `db`
pool is modelled by passing query responses to `scrape` explicitly. -/
structure MastodonExporterState where
  numReports : String
  resolvedTimeSeconds : String
  errorsValue : ℚ
  deriving DecidableEq, Repr

/-- Embedding of `newExporter`: build the static descriptors; the `errors`
gauge starts at its zero value. -/
def newExporter : MastodonExporterState :=
  { numReports := numReportsName
  , resolvedTimeSeconds := resolvedTimeSecondsName
  , errorsValue := 0 }

/-- Embedding of `scrape` (lines 508-540).  First family: the report
counts; on success emit the two gauges, on failure bump `numErrors`.
Second family: the resolution-duration histogram; on success emit it, on
failure bump `numErrors`.  Finally set the `errors` gauge to `numErrors`
and emit it.  Returns the updated exporter state and the emitted metrics
in order. -/
def scrape (m : MastodonExporterState) (reportsResp : ReportsResp)
    (durationsResp : DurationsResp) : MastodonExporterState × List Metric :=
  let step1 : List Metric × ℕ :=
    match getNumReports reportsResp with
    | .error _ => ([], 0 + 1)
    | .ok (resolved, unresolved) =>
        (reportCountSamples m.numReports resolved unresolved, 0)
  let step2 : List Metric × ℕ :=
    match getResolvedStats durationsResp with
    | .error _ => ([], step1.2 + 1)
    | .ok hist => ([Metric.histogram m.resolvedTimeSeconds hist], step1.2)
  let m' := { m with errorsValue := (step2.2 : ℚ) }
  (m', step1.1 ++ step2.1 ++ [Metric.gauge errorsName [] m'.errorsValue])

/-- The number of families whose query failed in a scrape with the given
responses. -/
def numFailedFamilies (reportsResp : ReportsResp) (durationsResp : DurationsResp) : ℕ :=
  (match getNumReports reportsResp with | .error _ => 1 | .ok _ => 0) +
  (match getResolvedStats durationsResp with | .error _ => 1 | .ok _ => 0)

/-- Whether a metric is the `errors` gauge. -/
def isErrorsGauge : Metric → Bool
  | .gauge n _ _ => n == errorsName
  | .histogram _ _ => false

/-! ## Claim theorems -/

/-- **C1.** For every strictly increasing list of positive boundaries `B` and
every sequence of observations `D`, the histogram built by the bucketing
engine (`resolvedMetricFromNums`) has, for every boundary `b` in `B`, a
cumulative count equal to the number of observations `d` in `D` with
`d ≤ b`; its sum equals the sum of `D` and its total count equals the length
of `D`.  (The concrete scenario of the claim is the witness theorem.) -/
theorem resolved_histogram_correct (B D : List ℚ)
    (hB : List.Pairwise (· < ·) B) (_hpos : ∀ b ∈ B, 0 < b) :
    (∀ b ∈ B, mapGet (resolvedMetricFromNums B D).buckets b
        = D.countP (fun d => decide (d ≤ b))) ∧
    (resolvedMetricFromNums B D).sum = D.sum ∧
    (resolvedMetricFromNums B D).count = D.length :=
  ⟨fun b hb => resolvedMetricFromNums_bucket_of_mem B D hB b hb,
    resolvedMetricFromNums_sum B D, resolvedMetricFromNums_count B D⟩

/-- Witness for C1: boundaries `[60, 600, 1800, 3600, 14400, 28800, 86400,
172800, 604800]` and observations `[45, 500, 3700]` give bucket counts
`1, 2, 2, 2, 3, 3, 3, 3, 3`, sum `4245` and count `3`. -/
theorem resolved_histogram_correct_witness :
    mapGet (resolvedMetricFromNums resolutionTimeBuckets [45, 500, 3700]).buckets 60 = 1 ∧
    mapGet (resolvedMetricFromNums resolutionTimeBuckets [45, 500, 3700]).buckets 600 = 2 ∧
    mapGet (resolvedMetricFromNums resolutionTimeBuckets [45, 500, 3700]).buckets 1800 = 2 ∧
    mapGet (resolvedMetricFromNums resolutionTimeBuckets [45, 500, 3700]).buckets 3600 = 2 ∧
    mapGet (resolvedMetricFromNums resolutionTimeBuckets [45, 500, 3700]).buckets 14400 = 3 ∧
    mapGet (resolvedMetricFromNums resolutionTimeBuckets [45, 500, 3700]).buckets 28800 = 3 ∧
    mapGet (resolvedMetricFromNums resolutionTimeBuckets [45, 500, 3700]).buckets 86400 = 3 ∧
    mapGet (resolvedMetricFromNums resolutionTimeBuckets [45, 500, 3700]).buckets 172800 = 3 ∧
    mapGet (resolvedMetricFromNums resolutionTimeBuckets [45, 500, 3700]).buckets 604800 = 3 ∧
    (resolvedMetricFromNums resolutionTimeBuckets [45, 500, 3700]).sum = 4245 ∧
    (resolvedMetricFromNums resolutionTimeBuckets [45, 500, 3700]).count = 3 := by
  have h := resolved_histogram_correct resolutionTimeBuckets [45, 500, 3700]
    (by decide) (by decide)
  exact ⟨(h.1 60 (by decide)).trans (by decide),
    (h.1 600 (by decide)).trans (by decide),
    (h.1 1800 (by decide)).trans (by decide),
    (h.1 3600 (by decide)).trans (by decide),
    (h.1 14400 (by decide)).trans (by decide),
    (h.1 28800 (by decide)).trans (by decide),
    (h.1 86400 (by decide)).trans (by decide),
    (h.1 172800 (by decide)).trans (by decide),
    (h.1 604800 (by decide)).trans (by decide),
    h.2.1.trans (by norm_num [List.sum]),
    h.2.2⟩

/-- **C8.** For every observation sequence `D` and strictly increasing
boundary list `B`, the cumulative counts are monotonically non-decreasing in
the boundary, and every boundary's count is at most the total count (the
implicit `+Inf` bucket). -/
theorem resolved_histogram_monotone (B D : List ℚ)
    (hB : List.Pairwise (· < ·) B) :
    (∀ b₁ ∈ B, ∀ b₂ ∈ B, b₁ < b₂ →
        mapGet (resolvedMetricFromNums B D).buckets b₁
          ≤ mapGet (resolvedMetricFromNums B D).buckets b₂) ∧
    (∀ b ∈ B, mapGet (resolvedMetricFromNums B D).buckets b
        ≤ (resolvedMetricFromNums B D).count) := by
  constructor
  · intro b₁ h₁ b₂ h₂ hlt
    rw [resolvedMetricFromNums_bucket_of_mem B D hB b₁ h₁,
      resolvedMetricFromNums_bucket_of_mem B D hB b₂ h₂]
    refine List.countP_mono_left fun d _ hd => ?_
    have hd' : d ≤ b₁ := of_decide_eq_true hd
    exact decide_eq_true (hd'.trans hlt.le)
  · intro b hb
    rw [resolvedMetricFromNums_bucket_of_mem B D hB b hb,
      resolvedMetricFromNums_count]
    exact List.countP_le_length _

/-- Witness for C8 at the default boundaries and observations
`[45, 500, 3700]`: the count at `60` is at most the count at `600`, and the
count at the largest boundary is at most the total count. -/
theorem resolved_histogram_monotone_witness :
    mapGet (resolvedMetricFromNums resolutionTimeBuckets [45, 500, 3700]).buckets 60
      ≤ mapGet (resolvedMetricFromNums resolutionTimeBuckets [45, 500, 3700]).buckets 600 ∧
    mapGet (resolvedMetricFromNums resolutionTimeBuckets [45, 500, 3700]).buckets 604800
      ≤ (resolvedMetricFromNums resolutionTimeBuckets [45, 500, 3700]).count := by
  have h := resolved_histogram_monotone resolutionTimeBuckets [45, 500, 3700] (by decide)
  exact ⟨h.1 60 (by decide) 600 (by decide) (by decide), h.2 604800 (by decide)⟩

/-- **C10.** The bucketing engine is total and does not check
non-negativity: appending a negative observation `d` adds `d` to the sum,
adds one to the total count, and increments the cumulative count of every
configured (positive) boundary, since `d ≤ b` holds for every positive
`b`. -/
theorem resolved_negative_observation (B D : List ℚ) (d : ℚ)
    (hd : d < 0) (hB : List.Pairwise (· < ·) B) (hpos : ∀ b ∈ B, 0 < b) :
    (resolvedMetricFromNums B (D ++ [d])).sum
      = (resolvedMetricFromNums B D).sum + d ∧
    (resolvedMetricFromNums B (D ++ [d])).count
      = (resolvedMetricFromNums B D).count + 1 ∧
    (∀ b ∈ B, mapGet (resolvedMetricFromNums B (D ++ [d])).buckets b
        = mapGet (resolvedMetricFromNums B D).buckets b + 1) := by
  refine ⟨?_, ?_, ?_⟩
  · rw [resolvedMetricFromNums_sum, resolvedMetricFromNums_sum, List.sum_append]
    simp
  · rw [resolvedMetricFromNums_count, resolvedMetricFromNums_count,
      List.length_append]
    simp
  · intro b hb
    rw [resolvedMetricFromNums_bucket_of_mem B (D ++ [d]) hB b hb,
      resolvedMetricFromNums_bucket_of_mem B D hB b hb, List.countP_append]
    have hdb : d ≤ b := (hd.trans (hpos b hb)).le
    simp [hdb]

/-- Witness for C10: a single observation of `-5` seconds yields sum `-5`,
count `1` and a count of `1` in the `60`-second bucket. -/
theorem resolved_negative_observation_witness :
    (resolvedMetricFromNums resolutionTimeBuckets [(-5 : ℚ)]).sum = -5 ∧
    (resolvedMetricFromNums resolutionTimeBuckets [(-5 : ℚ)]).count = 1 ∧
    mapGet (resolvedMetricFromNums resolutionTimeBuckets [(-5 : ℚ)]).buckets 60 = 1 := by
  have h := resolved_negative_observation resolutionTimeBuckets [] (-5)
    (by norm_num) (by decide) (by decide)
  have hsum : (resolvedMetricFromNums resolutionTimeBuckets []).sum = 0 :=
    resolvedMetricFromNums_sum resolutionTimeBuckets []
  exact ⟨h.1.trans (by rw [hsum]; norm_num), h.2.1, h.2.2 60 (by decide)⟩

/-- **C4 counterexample.** The bucket accumulator is *not* initialized with
a zero entry keyed by each configured boundary: after folding the empty
observation sequence, the Go map holds no entry at all — reading the
configured boundary `60` finds no key, rather than an entry with value
zero. -/
theorem empty_histogram_has_no_zero_entries :
    (resolvedMetricFromNums resolutionTimeBuckets []).buckets = [] ∧
    mapLookup (resolvedMetricFromNums resolutionTimeBuckets []).buckets 60 ≠ some 0 :=
  ⟨rfl, by decide⟩

/-- **C4 (amended).** For every boundary list `B`, building a histogram from
the empty observation sequence yields a valid histogram whose bucket map is
empty (entries are created lazily on first increment, not initialized per
boundary), so the cumulative count read at every boundary — with Go's
zero-value default — is zero, the sum is zero and the total count is zero; a
reportable result, not an error. -/
theorem empty_observations_histogram (B : List ℚ) :
    (resolvedMetricFromNums B []).buckets = [] ∧
    (∀ b, mapGet (resolvedMetricFromNums B []).buckets b = 0) ∧
    (resolvedMetricFromNums B []).sum = 0 ∧
    (resolvedMetricFromNums B []).count = 0 :=
  ⟨rfl, fun _ => rfl, rfl, rfl⟩

/-! ### Row collection lemmas -/

theorem collectRows_error_of_mem_none (rs : List (Option ℚ)) (h : none ∈ rs) :
    collectRows rs = .error .rowScanError := by
  induction rs with
  | nil => cases h
  | cons hd tl ih =>
      cases hd with
      | none => rfl
      | some n =>
          have htl : none ∈ tl := by
            rcases List.mem_cons.mp h with h1 | h1
            · simp at h1
            · exact h1
          simp [collectRows, ih htl]

theorem collectRows_ok_of_all_some (rs : List (Option ℚ)) (h : none ∉ rs) :
    collectRows rs = .ok (rs.filterMap id) := by
  induction rs with
  | nil => rfl
  | cons hd tl ih =>
      cases hd with
      | none => exact absurd (List.mem_cons_self _ _) h
      | some n =>
          have htl : none ∉ tl := fun hm => h (List.mem_cons_of_mem _ hm)
          simp [collectRows, ih htl, List.filterMap_cons]

theorem collectRows_ok_complete (rs : List (Option ℚ)) (ns : List ℚ)
    (h : collectRows rs = .ok ns) : rs = ns.map some := by
  induction rs generalizing ns with
  | nil =>
      simp only [collectRows] at h
      cases h
      rfl
  | cons hd tl ih =>
      cases hd with
      | none => simp [collectRows] at h
      | some n =>
          simp only [collectRows] at h
          rcases hcr : collectRows tl with e | ns'
          · rw [hcr] at h
            simp at h
          · rw [hcr] at h
            simp only [Except.ok.injEq] at h
            subst h
            simp [List.map_cons, ih ns' hcr]

/-- **C7.** The resolution-durations query returns either the complete
sequence of durations or an error: it fails with a query error when the
query itself fails and with a row-scan error when any individual row cannot
be decoded; in the row-decode case the whole query fails with no partial
results — whenever row collection succeeds, every row was decoded and the
result is the complete decoded sequence. -/
theorem getResolvedStats_error_semantics (resp : DurationsResp) :
    (resp = .fail → getResolvedStats resp = .error .queryError) ∧
    (∀ rs, resp = .rows rs →
      (none ∈ rs → getResolvedStats resp = .error .rowScanError) ∧
      (none ∉ rs →
        getResolvedStats resp
          = .ok (resolvedMetricFromNums resolutionTimeBuckets (rs.filterMap id))) ∧
      (∀ ns, collectRows rs = .ok ns → rs = ns.map some)) := by
  refine ⟨fun hf => by rw [hf]; rfl, fun rs hr => ⟨?_, ?_, ?_⟩⟩
  · intro hnone
    rw [hr]
    simp [getResolvedStats, collectRows_error_of_mem_none rs hnone]
  · intro hnone
    rw [hr]
    simp [getResolvedStats, collectRows_ok_of_all_some rs hnone]
  · exact collectRows_ok_complete rs

/-- Witness for C7: a failing query yields the query error; a result set
whose second row fails to scan yields the row-scan error, losing the
successfully decoded first row. -/
theorem getResolvedStats_error_semantics_witness :
    getResolvedStats .fail = .error .queryError ∧
    getResolvedStats (.rows [some 45, none]) = .error .rowScanError :=
  ⟨(getResolvedStats_error_semantics .fail).1 rfl,
    ((getResolvedStats_error_semantics (.rows [some 45, none])).2
      [some 45, none] rfl).1 (by decide)⟩

/-! ### Orchestrator claims -/

theorem numReportsName_ne_errorsName : numReportsName ≠ errorsName := by decide

/-- **C2.** If exactly one of the two family queries fails during a scrape,
the error gauge emitted at the end equals `1`, the failed family's samples
are absent, and the other family's samples are present and correct: with the
report-count query failing and the duration query succeeding, the output is
exactly the histogram sample followed by the error gauge at `1`, and vice
versa the two report-count gauges followed by the error gauge at `1`. -/
theorem scrape_partial_failure (m : MastodonExporterState)
    (hm1 : m.numReports = numReportsName)
    (hm2 : m.resolvedTimeSeconds = resolvedTimeSecondsName) :
    (∀ e d hist, getResolvedStats d = .ok hist →
      (scrape m (.error e) d).2
        = [Metric.histogram resolvedTimeSecondsName hist,
           Metric.gauge errorsName [] 1]) ∧
    (∀ (r u : ℤ) d e, getResolvedStats d = .error e →
      (scrape m (.ok (r, u)) d).2
        = [Metric.gauge numReportsName ["true"] (r : ℚ),
           Metric.gauge numReportsName ["false"] (u : ℚ),
           Metric.gauge errorsName [] 1]) := by
  constructor
  · intro e d hist hd
    simp [scrape, getNumReports, hd, hm2]
  · intro r u d e hd
    simp [scrape, getNumReports, hd, hm1, reportCountSamples]

/-- Witness for C2 on the exporter built by `newExporter`: a failed
report-count query with an empty-result duration query, and a successful
report-count query `(3, 0)` with a failed duration query. -/
theorem scrape_partial_failure_witness :
    (scrape newExporter (.error .queryError) (.rows [])).2
      = [Metric.histogram resolvedTimeSecondsName
           (resolvedMetricFromNums resolutionTimeBuckets []),
         Metric.gauge errorsName [] 1] ∧
    (scrape newExporter (.ok (3, 0)) .fail).2
      = [Metric.gauge numReportsName ["true"] 3,
         Metric.gauge numReportsName ["false"] 0,
         Metric.gauge errorsName [] 1] := by
  have h := scrape_partial_failure newExporter rfl rfl
  refine ⟨h.1 .queryError (.rows []) _ rfl, ?_⟩
  have h2 := h.2 3 0 .fail .queryError rfl
  simpa using h2

/-- **C3.** On every scrape, after all families have been attempted, the
orchestrator unconditionally emits exactly one final gauge sample with the
`errors` name, whose value equals the number of families whose query failed
during that scrape (`0` when all families succeeded). -/
theorem scrape_errors_gauge_unconditional (m : MastodonExporterState)
    (r : ReportsResp) (d : DurationsResp)
    (hm1 : m.numReports = numReportsName) :
    ((scrape m r d).2).getLast?
      = some (Metric.gauge errorsName [] (numFailedFamilies r d : ℚ)) ∧
    ((scrape m r d).2).countP isErrorsGauge = 1 := by
  rcases r with e | ⟨rv, uv⟩ <;>
    rcases hd : getResolvedStats d with e' | hist <;>
      simp [scrape, getNumReports, numFailedFamilies, hd, hm1,
        reportCountSamples, isErrorsGauge, numReportsName_ne_errorsName]

/-- Witness for C3: the all-success scrape ends with the error gauge at `0`
and contains exactly one error-gauge sample. -/
theorem scrape_errors_gauge_unconditional_witness :
    ((scrape newExporter (.ok (3, 0)) (.rows [])).2).getLast?
      = some (Metric.gauge errorsName [] 0) ∧
    ((scrape newExporter (.ok (3, 0)) (.rows [])).2).countP isErrorsGauge = 1 := by
  have h := scrape_errors_gauge_unconditional newExporter (.ok (3, 0)) (.rows []) rfl
  exact ⟨by simpa using h.1, h.2⟩

/-- **C5.** If both family queries fail during a scrape, the only sample
emitted is the error gauge, with value `2`. -/
theorem scrape_total_failure (m : MastodonExporterState) (e : ScrapeError)
    (d : DurationsResp) (e' : ScrapeError)
    (hd : getResolvedStats d = .error e') :
    (scrape m (.error e) d).2 = [Metric.gauge errorsName [] 2] := by
  simp [scrape, getNumReports, hd]

/-- Witness for C5: both queries failing yields only the error gauge at
`2`. -/
theorem scrape_total_failure_witness :
    (scrape newExporter (.error .queryError) .fail).2
      = [Metric.gauge errorsName [] 2] :=
  scrape_total_failure newExporter .queryError .fail .queryError rfl

/-- **C6.** For all non-negative integers `r` and `u`, building the
report-count samples yields exactly two gauge samples: one labelled
`"true"` with value `r` and one labelled `"false"` with value `u`, each
count cast to the metric value type; the pair is order-independent —
membership in the result is exactly being one of the two samples — and the
builder is a total function (it never fails). -/
theorem reportCountSamples_spec (r u : ℤ) (_hr : 0 ≤ r) (_hu : 0 ≤ u) :
    (reportCountSamples numReportsName r u).length = 2 ∧
    reportCountSamples numReportsName r u
      = [Metric.gauge numReportsName ["true"] (r : ℚ),
         Metric.gauge numReportsName ["false"] (u : ℚ)] ∧
    (∀ s, s ∈ reportCountSamples numReportsName r u ↔
      (s = Metric.gauge numReportsName ["true"] (r : ℚ) ∨
       s = Metric.gauge numReportsName ["false"] (u : ℚ))) := by
  refine ⟨rfl, rfl, fun s => ?_⟩
  simp [reportCountSamples]

/-- Witness for C6: the concrete scenario `resolved = 3`, `unresolved = 0`
gives the two samples `{resolved="true"} = 3` and `{resolved="false"} = 0`. -/
theorem reportCountSamples_spec_witness :
    reportCountSamples numReportsName 3 0
      = [Metric.gauge numReportsName ["true"] 3,
         Metric.gauge numReportsName ["false"] 0] := by
  have h := reportCountSamples_spec 3 0 (by norm_num) (by norm_num)
  simpa using h.2.1

/-- **C9.** The scrape orchestrator is stateless across scrapes: the emitted
samples do not depend on the mutable state carried between scrapes (the
`errors` gauge value), the static metric-family identities are unchanged by
a scrape, and the post-scrape mutable value is a function of the current
scrape's query responses alone. -/
theorem scrape_stateless (m m' : MastodonExporterState)
    (r : ReportsResp) (d : DurationsResp)
    (h1 : m.numReports = m'.numReports)
    (h2 : m.resolvedTimeSeconds = m'.resolvedTimeSeconds) :
    (scrape m r d).2 = (scrape m' r d).2 ∧
    (scrape m r d).1.numReports = m.numReports ∧
    (scrape m r d).1.resolvedTimeSeconds = m.resolvedTimeSeconds ∧
    (scrape m r d).1.errorsValue = (numFailedFamilies r d : ℚ) := by
  rcases r with e | ⟨rv, uv⟩ <;>
    rcases hd : getResolvedStats d with e' | hist <;>
      simp [scrape, getNumReports, numFailedFamilies, hd, h1, h2]

/-- Witness for C9: a fresh exporter and one whose `errors` gauge still
holds `5` from an earlier scrape emit identical samples, and the all-success
scrape leaves the gauge at `0`. -/
theorem scrape_stateless_witness :
    (scrape newExporter (.ok (3, 0)) (.rows [])).2
      = (scrape { newExporter with errorsValue := 5 } (.ok (3, 0)) (.rows [])).2 ∧
    (scrape newExporter (.ok (3, 0)) (.rows [])).1.errorsValue = 0 := by
  have h := scrape_stateless newExporter { newExporter with errorsValue := 5 }
    (.ok (3, 0)) (.rows []) rfl rfl
  exact ⟨h.1, by simpa using h.2.2.2⟩

end MastodonExporter
